import Mathlib

/-!
# Verification of `edit_map.py` (roborock-tools)

A shallow embedding of the Roborock S5 map tool. The on-disk file is a
sequence of bytes (modelled as `List Nat` with entries `< 256`); the tool
reads it as little-endian 32-bit words via Python's `array('I')`
(machine byte order; we model the usual little-endian machines the tool
runs on). `EOFError` from `array.fromfile`, `IndexError`/`OverflowError`
from item assignment, and any other exception escaping a method are
modelled as `none` of an `Option` result.
-/

namespace Roborock

/-- One 32-bit word as four little-endian bytes (`array('I').tofile`). -/
def wordToBytes (w : Nat) : List Nat :=
  [w % 256, w / 256 % 256, w / 65536 % 256, w / 16777216 % 256]

/-- A word sequence as bytes, little-endian (`array('I').tofile`). -/
def wordsToBytes : List Nat → List Nat
  | [] => []
  | w :: ws => wordToBytes w ++ wordsToBytes ws

/-- Bytes grouped into little-endian 32-bit words (`array('I').fromfile`);
a trailing partial group is dropped (the loader never produces one). -/
def bytesToWords : List Nat → List Nat
  | b0 :: b1 :: b2 :: b3 :: rest =>
      (b0 + 256 * b1 + 65536 * b2 + 16777216 * b3) :: bytesToWords rest
  | _ => []

/-! ## MD5 (hashlib.md5), over byte lists -/

/-- The 64 MD5 sine-derived round constants. -/
def md5K : List Nat :=
  [0xd76aa478, 0xe8c7b756, 0x242070db, 0xc1bdceee,
   0xf57c0faf, 0x4787c62a, 0xa8304613, 0xfd469501,
   0x698098d8, 0x8b44f7af, 0xffff5bb1, 0x895cd7be,
   0x6b901122, 0xfd987193, 0xa679438e, 0x49b40821,
   0xf61e2562, 0xc040b340, 0x265e5a51, 0xe9b6c7aa,
   0xd62f105d, 0x02441453, 0xd8a1e681, 0xe7d3fbc8,
   0x21e1cde6, 0xc33707d6, 0xf4d50d87, 0x455a14ed,
   0xa9e3e905, 0xfcefa3f8, 0x676f02d9, 0x8d2a4c8a,
   0xfffa3942, 0x8771f681, 0x6d9d6122, 0xfde5380c,
   0xa4beea44, 0x4bdecfa9, 0xf6bb4b60, 0xbebfbc70,
   0x289b7ec6, 0xeaa127fa, 0xd4ef3085, 0x04881d05,
   0xd9d4d039, 0xe6db99e5, 0x1fa27cf8, 0xc4ac5665,
   0xf4292244, 0x432aff97, 0xab9423a7, 0xfc93a039,
   0x655b59c3, 0x8f0ccc92, 0xffeff47d, 0x85845dd1,
   0x6fa87e4f, 0xfe2ce6e0, 0xa3014314, 0x4e0811a1,
   0xf7537e82, 0xbd3af235, 0x2ad7d2bb, 0xeb86d391]

/-- The 64 MD5 per-round left-rotation amounts. -/
def md5S : List Nat :=
  [7, 12, 17, 22, 7, 12, 17, 22, 7, 12, 17, 22, 7, 12, 17, 22,
   5, 9, 14, 20, 5, 9, 14, 20, 5, 9, 14, 20, 5, 9, 14, 20,
   4, 11, 16, 23, 4, 11, 16, 23, 4, 11, 16, 23, 4, 11, 16, 23,
   6, 10, 15, 21, 6, 10, 15, 21, 6, 10, 15, 21, 6, 10, 15, 21]

/-- 32-bit left rotation. -/
def rotl32 (x n : Nat) : Nat := (x * 2 ^ n + x / 2 ^ (32 - n)) % 2 ^ 32

def md5F (b c d : Nat) : Nat := Nat.lor (Nat.land b c) (Nat.land (Nat.xor b 0xffffffff) d)

def md5G (b c d : Nat) : Nat := Nat.lor (Nat.land d b) (Nat.land (Nat.xor d 0xffffffff) c)

def md5H (b c d : Nat) : Nat := Nat.xor (Nat.xor b c) d

def md5I (b c d : Nat) : Nat := Nat.xor c (Nat.lor b (Nat.xor d 0xffffffff))

/-- One of the 64 MD5 rounds; `M` is the current 16-word message block. -/
def md5Round (M : List Nat) (st : Nat × Nat × Nat × Nat) (i : Nat) :
    Nat × Nat × Nat × Nat :=
  let (a, b, c, d) := st
  let f :=
    if i < 16 then md5F b c d
    else if i < 32 then md5G b c d
    else if i < 48 then md5H b c d
    else md5I b c d
  let g :=
    if i < 16 then i
    else if i < 32 then (5 * i + 1) % 16
    else if i < 48 then (3 * i + 5) % 16
    else (7 * i) % 16
  let t := (f + a + md5K.getD i 0 + M.getD g 0) % 2 ^ 32
  (d, (b + rotl32 t (md5S.getD i 0)) % 2 ^ 32, b, c)

/-- Process one padded 64-byte block into the running MD5 state. -/
def md5Block (st : Nat × Nat × Nat × Nat) (block : List Nat) :
    Nat × Nat × Nat × Nat :=
  let M := bytesToWords block
  let r := (List.range 64).foldl (md5Round M) st
  ((st.1 + r.1) % 2 ^ 32, (st.2.1 + r.2.1) % 2 ^ 32,
   (st.2.2.1 + r.2.2.1) % 2 ^ 32, (st.2.2.2 + r.2.2.2) % 2 ^ 32)

/-- The 8-byte little-endian MD5 length trailer. -/
def lenBytes64 (n : Nat) : List Nat := (List.range 8).map (fun i => n / 256 ^ i % 256)

/-- MD5 padding: a 0x80 byte, zeros to 56 mod 64, then the bit length. -/
def md5Pad (msg : List Nat) : List Nat :=
  msg ++ 128 :: List.replicate ((56 + 64 - (msg.length + 1) % 64) % 64) 0
      ++ lenBytes64 (8 * msg.length % 2 ^ 64)

/-- `hashlib.md5(msg).digest()` as a list of 16 bytes. -/
def md5Bytes (msg : List Nat) : List Nat :=
  let padded := md5Pad msg
  let r := (List.range (padded.length / 64)).foldl
    (fun st i => md5Block st ((padded.drop (64 * i)).take 64))
    (0x67452301, 0xefcdab89, 0x98badcfe, 0x10325476)
  wordsToBytes [r.1, r.2.1, r.2.2.1, r.2.2.2]

/-! ## The map object -/

/-- The state of a `RoborockMap` object: the 10-word header, the cached
`width`/`height` (`header[8]`, `header[9]`), the pixel array `_map`, and
the 4-word `checksum` array. -/
structure RoborockMap where
  header : List Nat
  width : Nat
  height : Nat
  _map : List Nat
  checksum : List Nat
deriving DecidableEq

/-- `calc_map_checksum`: MD5 over the pixel array's bytes, reread as
four 32-bit words (`array('I', m.digest())`). -/
def calc_map_checksum (m : RoborockMap) : List Nat :=
  bytesToWords (md5Bytes (wordsToBytes m._map))

/-- `__init__` reading from a byte sequence: 10 header words, then
`width*height` pixel words, then 4 checksum words; `none` models the
`EOFError` that `array.fromfile` raises when too few bytes remain. -/
def load (bytes : List Nat) : Option RoborockMap :=
  if bytes.length < 40 then none else
  let header := bytesToWords (bytes.take 40)
  let width := header.getD 8 0
  let height := header.getD 9 0
  let rest := bytes.drop 40
  if rest.length < 4 * (width * height) then none else
  let mapData := bytesToWords (rest.take (4 * (width * height)))
  let rest2 := rest.drop (4 * (width * height))
  if rest2.length < 16 then none else
  some ⟨header, width, height, mapData, bytesToWords (rest2.take 16)⟩

/-- Whether `__init__` prints "Warning: incorrect checksum found":
`calc_map_checksum() != checksum` on the freshly loaded object. -/
def loadWarning (bytes : List Nat) : Option Bool :=
  (load bytes).map (fun m => decide (calc_map_checksum m ≠ m.checksum))

/-- `update_checksum`. -/
def update_checksum (m : RoborockMap) : RoborockMap :=
  { m with checksum := calc_map_checksum m }

/-- `to_file`: update the checksum, then write header, map and checksum;
returns the mutated object together with the bytes written. -/
def to_file (m : RoborockMap) : RoborockMap × List Nat :=
  let m2 := update_checksum m
  (m2, wordsToBytes m2.header ++ wordsToBytes m2._map ++ wordsToBytes m2.checksum)

/-- Python sequence indexing: a negative index counts from the end;
an index out of `[-len, len)` raises `IndexError` (`none`). -/
def pyIndex (len : Nat) (i : Int) : Option Nat :=
  if 0 ≤ i then (if i < (len : Int) then some i.toNat else none)
  else (if 0 ≤ (len : Int) + i then some ((len : Int) + i).toNat else none)

/-- `get_pixel(x, y)`: `self._map[y*self.width+x]`. -/
def get_pixel (m : RoborockMap) (x y : Int) : Option Nat :=
  (pyIndex m._map.length (y * (m.width : Int) + x)).map (fun i => m._map.getD i 0)

/-- `set_pixel(x, y, value)`: `self._map[y*self.width+x] = value`;
`array('I')` assignment raises `OverflowError` unless `value < 2^32`. -/
def set_pixel (m : RoborockMap) (x y : Int) (value : Nat) : Option RoborockMap :=
  if value < 2 ^ 32 then
    (pyIndex m._map.length (y * (m.width : Int) + x)).map
      (fun i => { m with _map := m._map.set i value })
  else none

/-- Python `range(a, b)` over integers. -/
def intRange (a b : Int) : List Int :=
  (List.range (b - a).toNat).map (fun (i : Nat) => a + (i : Int))

/-- Run `set_pixel` over a list of coordinates in order, stopping at the
first failure (an uncaught exception aborts the loop). -/
def setPixels (m : RoborockMap) (ps : List (Int × Int)) (value : Nat) :
    Option RoborockMap :=
  ps.foldl (fun acc p => acc.bind (fun mm => set_pixel mm p.1 p.2 value)) (some m)

/-- `set_rect`: `for x in range(x1, x2+1): for y in range(y1, y2+1):
set_pixel(x, y, value)`. -/
def set_rect (m : RoborockMap) (rect : Int × Int × Int × Int) (value : Nat) :
    Option RoborockMap :=
  match rect with
  | (x1, y1, x2, y2) =>
    setPixels m
      ((intRange x1 (x2 + 1)).flatMap
        (fun x => (intRange y1 (y2 + 1)).map (fun y => (x, y)))) value

/-- `set_rect_border`: top/bottom rows for each `x` in `[x1, x2]`, then
left/right columns for each `y` in `[y1, y2]`. -/
def set_rect_border (m : RoborockMap) (rect : Int × Int × Int × Int) (value : Nat) :
    Option RoborockMap :=
  match rect with
  | (x1, y1, x2, y2) =>
    setPixels m
      ((intRange x1 (x2 + 1)).flatMap (fun x => [(x, y1), (x, y2)]) ++
       (intRange y1 (y2 + 1)).flatMap (fun y => [(x1, y), (x2, y)])) value

/-- `classify_pixel`: 1 if the MSB (bit 31) is set, else 2 if nonzero,
else 0. -/
def classify_pixel (value : Nat) : Nat :=
  if Nat.land value 0x80000000 ≠ 0 then 1
  else if value ≠ 0 then 2
  else 0

/-- Modelled from the spec (§4.6), for comparison with `classify_pixel`:
`0 → Unexplored (0)`; else if bit 31 set `→ Floor (1)`; else `→ Wall (2)`. -/
def classifySpec (value : Nat) : Nat :=
  if value = 0 then 0
  else if Nat.land value 0x80000000 ≠ 0 then 1
  else 2

/-- All entries of a byte list are in range (true of any real file). -/
def ValidBytes (bytes : List Nat) : Prop := ∀ b ∈ bytes, b < 256

instance : DecidablePred ValidBytes := fun bytes =>
  inferInstanceAs (Decidable (∀ b ∈ bytes, b < 256))

/-! ## Lemmas about the byte/word codecs -/

theorem wordToBytes_length (w : Nat) : (wordToBytes w).length = 4 := rfl

theorem wordsToBytes_length (ws : List Nat) :
    (wordsToBytes ws).length = 4 * ws.length := by
  induction ws with
  | nil => rfl
  | cons w ws ih =>
    simp [wordsToBytes, wordToBytes, ih]
    omega

theorem wordsToBytes_lt (ws : List Nat) : ValidBytes (wordsToBytes ws) := by
  induction ws with
  | nil => intro b hb; simp [wordsToBytes] at hb
  | cons w ws ih =>
    intro b hb
    have hstep : wordsToBytes (w :: ws) =
        w % 256 :: w / 256 % 256 :: w / 65536 % 256 :: w / 16777216 % 256 ::
          wordsToBytes ws := rfl
    rw [hstep] at hb
    simp only [List.mem_cons] at hb
    rcases hb with rfl | rfl | rfl | rfl | h
    · omega
    · omega
    · omega
    · omega
    · exact ih b h

theorem bytesToWords_wordsToBytes (ws : List Nat) (h : ∀ w ∈ ws, w < 2 ^ 32) :
    bytesToWords (wordsToBytes ws) = ws := by
  induction ws with
  | nil => rfl
  | cons w ws ih =>
    have hw : w < 2 ^ 32 := h w (by simp)
    have hstep : bytesToWords (wordsToBytes (w :: ws)) =
        (w % 256 + 256 * (w / 256 % 256) + 65536 * (w / 65536 % 256) +
          16777216 * (w / 16777216 % 256)) :: bytesToWords (wordsToBytes ws) := rfl
    rw [hstep, ih (fun w hw => h w (by simp [hw]))]
    congr 1
    omega

theorem bytesToWords_length : ∀ (bs : List Nat), (bytesToWords bs).length = bs.length / 4
  | b0 :: b1 :: b2 :: b3 :: rest => by
    have h := bytesToWords_length rest
    simp only [bytesToWords, List.length_cons, h]
    omega
  | [] => by simp [bytesToWords]
  | [_] => by simp [bytesToWords]
  | [_, _] => by simp [bytesToWords]
  | [_, _, _] => by simp [bytesToWords]

theorem bytesToWords_lt : ∀ (bs : List Nat), ValidBytes bs → ∀ w ∈ bytesToWords bs, w < 2 ^ 32
  | b0 :: b1 :: b2 :: b3 :: rest => by
    intro h w hw
    have h0 := h b0 (by simp)
    have h1 := h b1 (by simp)
    have h2 := h b2 (by simp)
    have h3 := h b3 (by simp)
    simp only [bytesToWords, List.mem_cons] at hw
    rcases hw with rfl | hw
    · omega
    · exact bytesToWords_lt rest (fun b hb => h b (by simp [hb])) w hw
  | [] => by intro _ w hw; simp [bytesToWords] at hw
  | [_] => by intro _ w hw; simp [bytesToWords] at hw
  | [_, _] => by intro _ w hw; simp [bytesToWords] at hw
  | [_, _, _] => by intro _ w hw; simp [bytesToWords] at hw

theorem md5Bytes_length (msg : List Nat) : (md5Bytes msg).length = 16 := by
  simp [md5Bytes, wordsToBytes_length]

theorem md5Bytes_lt (msg : List Nat) : ValidBytes (md5Bytes msg) := by
  intro b hb
  exact wordsToBytes_lt _ b hb

theorem calc_map_checksum_length (m : RoborockMap) :
    (calc_map_checksum m).length = 4 := by
  simp [calc_map_checksum, bytesToWords_length, md5Bytes_length]

theorem calc_map_checksum_lt (m : RoborockMap) :
    ∀ w ∈ calc_map_checksum m, w < 2 ^ 32 :=
  bytesToWords_lt _ (md5Bytes_lt _)

/-! ## Lemmas about load -/

/-- Let-free unfolding of `load`. -/
theorem load_eq (bytes : List Nat) :
    load bytes =
      if bytes.length < 40 then none
      else if (bytes.drop 40).length <
          4 * ((bytesToWords (bytes.take 40)).getD 8 0 *
               (bytesToWords (bytes.take 40)).getD 9 0) then none
      else if ((bytes.drop 40).drop
          (4 * ((bytesToWords (bytes.take 40)).getD 8 0 *
                (bytesToWords (bytes.take 40)).getD 9 0))).length < 16 then none
      else some ⟨bytesToWords (bytes.take 40),
                 (bytesToWords (bytes.take 40)).getD 8 0,
                 (bytesToWords (bytes.take 40)).getD 9 0,
                 bytesToWords ((bytes.drop 40).take
                   (4 * ((bytesToWords (bytes.take 40)).getD 8 0 *
                         (bytesToWords (bytes.take 40)).getD 9 0))),
                 bytesToWords (((bytes.drop 40).drop
                   (4 * ((bytesToWords (bytes.take 40)).getD 8 0 *
                         (bytesToWords (bytes.take 40)).getD 9 0))).take 16)⟩ :=
  rfl

/-- Loading a file made of a 40-byte header section, a grid section of
exactly the declared size, and a 16-byte trailer parses the three
sections, whatever their contents. -/
theorem load_parts (h g c : List Nat) (hh : h.length = 40)
    (hg : g.length = 4 * ((bytesToWords h).getD 8 0 * (bytesToWords h).getD 9 0))
    (hc : c.length = 16) :
    load (h ++ (g ++ c)) =
      some ⟨bytesToWords h, (bytesToWords h).getD 8 0, (bytesToWords h).getD 9 0,
            bytesToWords g, bytesToWords c⟩ := by
  have hlen : (h ++ (g ++ c)).length = 40 + (g.length + 16) := by
    simp [hh, hc]
  have htake : (h ++ (g ++ c)).take 40 = h := List.take_left' hh
  have hdrop : (h ++ (g ++ c)).drop 40 = g ++ c := List.drop_left' hh
  rw [load_eq, if_neg (by omega), htake, hdrop]
  rw [if_neg (by rw [List.length_append, hc, ← hg]; omega)]
  rw [List.take_left' hg, List.drop_left' hg]
  rw [if_neg (by rw [hc]; omega)]
  rw [List.take_of_length_le (by omega)]

/-- What a successful load says about the resulting object. -/
theorem load_eq_some {bytes : List Nat} {m : RoborockMap}
    (h : load bytes = some m) :
    m.header = bytesToWords (bytes.take 40) ∧
    m.header.length = 10 ∧
    m.width = m.header.getD 8 0 ∧
    m.height = m.header.getD 9 0 ∧
    m._map = bytesToWords ((bytes.drop 40).take (4 * (m.width * m.height))) ∧
    m._map.length = m.width * m.height ∧
    m.checksum.length = 4 ∧
    40 + 4 * (m.width * m.height) + 16 ≤ bytes.length := by
  rw [load_eq] at h
  split at h
  · exact absurd h (by simp)
  next h40 =>
    split at h
    · exact absurd h (by simp)
    next hgrid =>
      split at h
      · exact absurd h (by simp)
      next hchk =>
        obtain rfl := Option.some_inj.mp h
        simp only [not_lt, List.length_drop] at h40 hgrid hchk
        dsimp only
        refine ⟨rfl, ?_, rfl, rfl, rfl, ?_, ?_, ?_⟩
        · rw [bytesToWords_length, List.length_take]
          omega
        · rw [bytesToWords_length, List.length_take, List.length_drop]
          omega
        · rw [bytesToWords_length, List.length_take, List.length_drop,
            List.length_drop]
          omega
        · omega

/-- C8: `load` fails (with `EOFError`, modelled as `none`) exactly when
the file is too short for the 40-byte header, the declared
`width*height*4` bytes of pixel payload, and the 16-byte checksum; it
never truncates and never returns a map built from partial data. -/
theorem load_truncated_fails (bytes : List Nat) :
    load bytes = none ↔
      bytes.length <
        40 + 4 * ((bytesToWords (bytes.take 40)).getD 8 0 *
                  (bytesToWords (bytes.take 40)).getD 9 0) + 16 := by
  rw [load_eq]
  split_ifs with h1 h2 h3
  · exact ⟨fun _ => by omega, fun _ => rfl⟩
  · simp only [List.length_drop] at h2
    exact ⟨fun _ => by omega, fun _ => rfl⟩
  · simp only [List.length_drop, not_lt] at h2 h3
    exact ⟨fun _ => by omega, fun _ => rfl⟩
  · simp only [List.length_drop, not_lt] at h2 h3
    constructor
    · intro hc
      exact absurd hc (by simp)
    · intro hlen
      omega

/-- C3: `to_file` recomputes the checksum from the current grid,
writes header, grid and checksum in that order, leaves the object's
checksum field equal to the digest of its (unchanged) grid, and its
output does not depend on any previously stored checksum value. -/
theorem to_file_recomputes_checksum (m : RoborockMap) (c : List Nat) :
    (to_file m).2 =
      wordsToBytes m.header ++ wordsToBytes m._map ++
        wordsToBytes (calc_map_checksum m) ∧
    (to_file m).1.checksum = calc_map_checksum ((to_file m).1) ∧
    (to_file m).1._map = m._map ∧
    (to_file m).2.drop
        ((wordsToBytes m.header).length + (wordsToBytes m._map).length) =
      wordsToBytes (calc_map_checksum m) ∧
    (to_file { m with checksum := c }).2 = (to_file m).2 := by
  refine ⟨rfl, rfl, rfl, ?_, rfl⟩
  have h1 : (to_file m).2 =
      (wordsToBytes m.header ++ wordsToBytes m._map) ++
        wordsToBytes (calc_map_checksum m) := rfl
  rw [h1, ← List.length_append, List.drop_left]

/-- C4: a checksum mismatch is non-fatal. A file with a well-formed
header and grid loads successfully whatever its 16 trailing checksum
bytes are, exposing the uncorrected grid; the comparison only feeds the
warning flag. -/
theorem load_checksum_mismatch_nonfatal (h g c : List Nat) (hh : h.length = 40)
    (hg : g.length = 4 * ((bytesToWords h).getD 8 0 * (bytesToWords h).getD 9 0))
    (hc : c.length = 16) :
    load (h ++ (g ++ c)) =
      some ⟨bytesToWords h, (bytesToWords h).getD 8 0, (bytesToWords h).getD 9 0,
            bytesToWords g, bytesToWords c⟩ ∧
    loadWarning (h ++ (g ++ c)) =
      some (decide (calc_map_checksum
        ⟨bytesToWords h, (bytesToWords h).getD 8 0, (bytesToWords h).getD 9 0,
         bytesToWords g, bytesToWords c⟩ ≠ bytesToWords c)) := by
  have hl := load_parts h g c hh hg hc
  refine ⟨hl, ?_⟩
  rw [loadWarning, hl, Option.map_some']

/-- C2: round-trip. Saving a loaded map and loading the output yields a
map with the same header words (opaque fields and width/height included)
and the same pixel grid. -/
theorem round_trip (bytes : List Nat) (m : RoborockMap)
    (hv : ValidBytes bytes) (h : load bytes = some m) :
    ∃ m', load (to_file m).2 = some m' ∧
      m'.header = m.header ∧ m'._map = m._map ∧
      m'.width = m.width ∧ m'.height = m.height := by
  obtain ⟨hhdr, hhlen, hw, hh2, hmap, hmlen, hclen, hblen⟩ := load_eq_some h
  have hhlt : ∀ w ∈ m.header, w < 2 ^ 32 := by
    rw [hhdr]
    exact bytesToWords_lt _ (fun b hb => hv b (List.take_subset _ _ hb))
  have hmlt : ∀ w ∈ m._map, w < 2 ^ 32 := by
    rw [hmap]
    exact bytesToWords_lt _
      (fun b hb => hv b (List.drop_subset _ _ (List.take_subset _ _ hb)))
  have hout : (to_file m).2 =
      wordsToBytes m.header ++
        (wordsToBytes m._map ++ wordsToBytes (calc_map_checksum m)) := by
    rw [← List.append_assoc]
    rfl
  have hH : bytesToWords (wordsToBytes m.header) = m.header :=
    bytesToWords_wordsToBytes _ hhlt
  have hM : bytesToWords (wordsToBytes m._map) = m._map :=
    bytesToWords_wordsToBytes _ hmlt
  have hlp := load_parts (wordsToBytes m.header) (wordsToBytes m._map)
      (wordsToBytes (calc_map_checksum m))
      (by rw [wordsToBytes_length, hhlen])
      (by rw [wordsToBytes_length, hH, hmlen, ← hw, ← hh2])
      (by rw [wordsToBytes_length, calc_map_checksum_length])
  refine ⟨_, by rw [hout]; exact hlp, ?_, ?_, ?_, ?_⟩
  · exact hH
  · exact hM
  · dsimp only
    rw [hH, ← hw]
  · dsimp only
    rw [hH, ← hh2]

/-! ## Pixel accessors -/

/-- Python indexing, written through `Int.emod`. -/
theorem pyIndex_eq (len : Nat) (i : Int) (hpos : 0 < len) :
    pyIndex len i =
      if -(len : Int) ≤ i ∧ i < (len : Int) then some ((i % (len : Int)).toNat)
      else none := by
  rw [pyIndex]
  by_cases h0 : 0 ≤ i
  · rw [if_pos h0]
    by_cases h1 : i < (len : Int)
    · rw [if_pos h1, if_pos ⟨by omega, h1⟩, Int.emod_eq_of_lt h0 h1]
    · rw [if_neg h1, if_neg (by omega)]
  · rw [if_neg h0]
    by_cases h1 : 0 ≤ (len : Int) + i
    · rw [if_pos h1, if_pos ⟨by omega, by omega⟩]
      have hmod : i % (len : Int) = (len : Int) + i := by
        have h2 : i % (len : Int) = (i + (len : Int) * 1) % (len : Int) :=
          (Int.add_mul_emod_self_left i (len : Int) 1).symm
        rw [h2, mul_one, Int.emod_eq_of_lt (by omega) (by omega)]
        omega
      rw [hmod]
    · rw [if_neg h1, if_neg (by omega)]

/-- A concrete 2×2 map object (grid `[10, 11, 12, 13]`). -/
def map22 : RoborockMap :=
  ⟨[0, 0, 0, 0, 0, 0, 0, 0, 2, 2], 2, 2, [10, 11, 12, 13], [0, 0, 0, 0]⟩

/-- A concrete well-formed 2×2 map file whose trailing 16 checksum bytes
are deliberately zero (not the MD5 of the grid). -/
def bytes22 : List Nat :=
  wordsToBytes [0, 0, 0, 0, 0, 0, 0, 0, 2, 2] ++
    wordsToBytes [10, 11, 12, 13] ++ List.replicate 16 0

/-- C1 (amended): `set_pixel(0, height, V)` always fails, but
`get_pixel(width, 0)` fails only when `width*height ≤ width` (height ≤ 1
or width = 0): the accessors check only the linear index
`y*width + x` against the flat array, not `x < width` or `y < height`. -/
theorem pixel_accessor_bounds (m : RoborockMap) (v : Nat)
    (hlen : m._map.length = m.width * m.height) :
    set_pixel m 0 (m.height : Int) v = none ∧
    (get_pixel m (m.width : Int) 0 = none ↔ m.width * m.height ≤ m.width) := by
  constructor
  · rw [set_pixel]
    split_ifs with hv
    · rw [pyIndex]
      have h1 : ((m.height : Int) * m.width + 0) = ((m._map.length : Int)) := by
        rw [hlen]
        push_cast
        ring
      rw [h1, if_pos (Int.natCast_nonneg _), if_neg (lt_irrefl _)]
      rfl
    · rfl
  · rw [get_pixel, pyIndex]
    have h1 : ((0 : Int) * m.width + m.width) = (m.width : Int) := by ring
    rw [h1, if_pos (Int.natCast_nonneg _)]
    by_cases h2 : (m.width : Int) < (m._map.length : Int)
    · rw [if_pos h2, Option.map_some']
      rw [hlen] at h2
      constructor
      · intro hc
        exact absurd hc (by simp)
      · intro hge
        exfalso
        omega
    · rw [if_neg h2, Option.map_none']
      rw [hlen] at h2
      exact ⟨fun _ => by omega, fun _ => rfl⟩

/-- C1 counterexample: on the loaded 2×2 map, `get_pixel(width, 0)` does
not fail; it returns the first cell of row 1 (the claim says it must
fail with `OutOfBounds` for any loaded map). -/
theorem get_pixel_width_zero_succeeds :
    (load bytes22).bind (fun m => get_pixel m (m.width : Int) 0) = some 12 := by
  decide

/-- C7: `classify_pixel` agrees with the spec's classification
(`0 → Unexplored(0)`, bit 31 set `→ Floor(1)`, else `→ Wall(2)`) on
every pixel value, and on the three quoted examples. -/
theorem classify_pixel_correct :
    (∀ v : Nat, classify_pixel v = classifySpec v) ∧
    classify_pixel 0 = 0 ∧ classify_pixel 0x80000000 = 1 ∧
    classify_pixel 0x00000001 = 2 := by
  refine ⟨?_, by decide, by decide, by decide⟩
  intro v
  by_cases hv : v = 0
  · subst hv
    decide
  · by_cases hl : Nat.land v 0x80000000 ≠ 0 <;>
      simp [classify_pixel, classifySpec, hv, hl]

/-- C10: the accessors use Python's flat-list indexing. For a loaded map
with a nonempty grid, any `(x, y)` whose linear index `y*width + x` lies
in `[-(width*height), width*height)` is read/written at that (possibly
wrapped) linear position without error — even when `x ≥ width`, `x < 0`
or `y < 0` — and any linear index outside that range fails. -/
theorem pixel_linear_indexing (m : RoborockMap) (x y : Int) (v : Nat)
    (hlen : m._map.length = m.width * m.height)
    (hpos : 0 < m.width * m.height) (hv : v < 2 ^ 32) :
    (-((m.width * m.height : Nat) : Int) ≤ y * m.width + x ∧
        y * m.width + x < ((m.width * m.height : Nat) : Int) →
      get_pixel m x y =
        some (m._map.getD
          ((y * m.width + x) % ((m.width * m.height : Nat) : Int)).toNat 0) ∧
      set_pixel m x y v =
        some { m with _map := m._map.set ((y * m.width + x) % ((m.width * m.height : Nat) : Int)).toNat v }) ∧
    (y * m.width + x < -((m.width * m.height : Nat) : Int) ∨
        ((m.width * m.height : Nat) : Int) ≤ y * m.width + x →
      get_pixel m x y = none ∧ set_pixel m x y v = none) := by
  constructor
  · rintro ⟨hlo, hhi⟩
    constructor
    · rw [get_pixel, hlen, pyIndex_eq _ _ hpos, if_pos ⟨hlo, hhi⟩,
        Option.map_some']
    · rw [set_pixel, if_pos hv, hlen, pyIndex_eq _ _ hpos, if_pos ⟨hlo, hhi⟩,
        Option.map_some']
  · intro h
    constructor
    · rw [get_pixel, hlen, pyIndex_eq _ _ hpos, if_neg (by omega),
        Option.map_none']
    · rw [set_pixel, if_pos hv, hlen, pyIndex_eq _ _ hpos, if_neg (by omega),
        Option.map_none']

/-! ## Rectangle operations -/

theorem getD_set (l : List Nat) (i j a : Nat) :
    (l.set i a).getD j 0 = if i = j ∧ i < l.length then a else l.getD j 0 := by
  simp only [List.getD_eq_getElem?_getD, List.getElem?_set]
  by_cases h : i = j
  · subst h
    by_cases h2 : i < l.length
    · simp [h2]
    · simp [h2, List.getElem?_eq_none (Nat.le_of_not_lt h2)]
  · simp [h]

theorem lin_lt (m : RoborockMap) {x y : Int}
    (hlen : m._map.length = m.width * m.height)
    (hx0 : 0 ≤ x) (hx1 : x < m.width) (hy0 : 0 ≤ y) (hy1 : y < m.height) :
    y.toNat * m.width + x.toNat < m._map.length := by
  have ha : x.toNat < m.width := by omega
  have hb : y.toNat < m.height := by omega
  rw [hlen]
  calc y.toNat * m.width + x.toNat < y.toNat * m.width + m.width := by omega
    _ = (y.toNat + 1) * m.width := by ring
    _ ≤ m.height * m.width := Nat.mul_le_mul_right _ (by omega)
    _ = m.width * m.height := Nat.mul_comm _ _

theorem set_pixel_inGrid (m : RoborockMap) (x y : Int) (v : Nat)
    (hlen : m._map.length = m.width * m.height) (hv : v < 2 ^ 32)
    (hx0 : 0 ≤ x) (hx1 : x < m.width) (hy0 : 0 ≤ y) (hy1 : y < m.height) :
    set_pixel m x y v =
      some { m with _map := m._map.set (y.toNat * m.width + x.toNat) v } := by
  have hidx : (y * m.width + x) = ((y.toNat * m.width + x.toNat : Nat) : Int) := by
    push_cast
    rw [Int.toNat_of_nonneg hx0, Int.toNat_of_nonneg hy0]
  have hlt := lin_lt m hlen hx0 hx1 hy0 hy1
  rw [set_pixel, if_pos hv, hidx, pyIndex, if_pos (Int.natCast_nonneg _),
    if_pos (by exact_mod_cast hlt), Option.map_some', Int.toNat_ofNat]

theorem get_pixel_inGrid (m : RoborockMap) (x y : Int)
    (hlen : m._map.length = m.width * m.height)
    (hx0 : 0 ≤ x) (hx1 : x < m.width) (hy0 : 0 ≤ y) (hy1 : y < m.height) :
    get_pixel m x y = some (m._map.getD (y.toNat * m.width + x.toNat) 0) := by
  have hidx : (y * m.width + x) = ((y.toNat * m.width + x.toNat : Nat) : Int) := by
    push_cast
    rw [Int.toNat_of_nonneg hx0, Int.toNat_of_nonneg hy0]
  have hlt := lin_lt m hlen hx0 hx1 hy0 hy1
  rw [get_pixel, hidx, pyIndex, if_pos (Int.natCast_nonneg _),
    if_pos (by exact_mod_cast hlt), Option.map_some', Int.toNat_ofNat]

theorem mem_intRange (a b x : Int) : x ∈ intRange a b ↔ a ≤ x ∧ x < b := by
  simp only [intRange, List.mem_map, List.mem_range]
  constructor
  · rintro ⟨i, hi, rfl⟩
    omega
  · rintro ⟨h1, h2⟩
    exact ⟨(x - a).toNat, by omega, by omega⟩

theorem intRange_eq_nil {a b : Int} (h : b ≤ a) : intRange a b = [] := by
  rw [intRange, show (b - a).toNat = 0 by omega]
  rfl

/-- Running `set_pixel` over a list of in-grid coordinates succeeds and
sets exactly the listed cells (through their linear indices), leaving
every other cell and every other field unchanged. -/
theorem setPixels_spec (ps : List (Int × Int)) :
    ∀ (m : RoborockMap) (v : Nat),
      m._map.length = m.width * m.height → v < 2 ^ 32 →
      (∀ p ∈ ps, 0 ≤ p.1 ∧ p.1 < m.width ∧ 0 ≤ p.2 ∧ p.2 < m.height) →
      ∃ m', setPixels m ps v = some m' ∧
        m'.header = m.header ∧ m'.width = m.width ∧ m'.height = m.height ∧
        m'.checksum = m.checksum ∧ m'._map.length = m._map.length ∧
        (∀ j : Nat,
          ((∃ p ∈ ps, p.2.toNat * m.width + p.1.toNat = j) →
            m'._map.getD j 0 = v) ∧
          ((∀ p ∈ ps, p.2.toNat * m.width + p.1.toNat ≠ j) →
            m'._map.getD j 0 = m._map.getD j 0)) := by
  induction ps with
  | nil =>
    intro m v hlen hv hin
    exact ⟨m, rfl, rfl, rfl, rfl, rfl, rfl,
      fun j => ⟨fun h => by simp at h, fun _ => rfl⟩⟩
  | cons p ps ih =>
    intro m v hlen hv hin
    obtain ⟨hx0, hx1, hy0, hy1⟩ := hin p (List.mem_cons_self p ps)
    have hset := set_pixel_inGrid m p.1 p.2 v hlen hv hx0 hx1 hy0 hy1
    set M : RoborockMap :=
      { m with _map := m._map.set (p.2.toNat * m.width + p.1.toNat) v } with hM
    have hstep : setPixels m (p :: ps) v = setPixels M ps v := by
      simp only [setPixels, List.foldl_cons, Option.some_bind, hset]
    have hMlen : M._map.length = m._map.length := by
      rw [hM]
      exact List.length_set m._map _ _
    have hlen1 : M._map.length = M.width * M.height := by
      rw [hMlen, hlen]
    have hin1 : ∀ q ∈ ps, 0 ≤ q.1 ∧ q.1 < M.width ∧ 0 ≤ q.2 ∧ q.2 < M.height :=
      fun q hq => hin q (List.mem_cons_of_mem _ hq)
    obtain ⟨m', hsp, hhd, hwd, hht, hck, hml, hcell⟩ := ih M v hlen1 hv hin1
    refine ⟨m', by rw [hstep]; exact hsp, hhd, hwd, hht, hck,
      by rw [hml, hMlen], ?_⟩
    intro j
    constructor
    · rintro ⟨q, hq, hlinq⟩
      rcases List.mem_cons.mp hq with heq | hq'
      · subst heq
        by_cases hps : ∃ q' ∈ ps, q'.2.toNat * m.width + q'.1.toNat = j
        · exact (hcell j).1 hps
        · push_neg at hps
          rw [(hcell j).2 hps]
          show (m._map.set (q.2.toNat * m.width + q.1.toNat) v).getD j 0 = v
          rw [getD_set,
            if_pos ⟨hlinq, hlinq ▸ lin_lt m hlen hx0 hx1 hy0 hy1⟩]
      · exact (hcell j).1 ⟨q, hq', hlinq⟩
    · intro hnone
      rw [(hcell j).2 (fun q hq => hnone q (List.mem_cons_of_mem _ hq))]
      show (m._map.set (p.2.toNat * m.width + p.1.toNat) v).getD j 0 =
        m._map.getD j 0
      rw [getD_set,
        if_neg (fun hc => hnone p (List.mem_cons_self p ps) hc.1)]

theorem lin_unique {w a b c d : Nat} (hb : b < w) (hd : d < w)
    (h : a * w + b = c * w + d) : a = c ∧ b = d := by
  have h1 : (a * w + b) % w = b := by
    rw [Nat.mul_comm, Nat.mul_add_mod, Nat.mod_eq_of_lt hb]
  have h2 : (c * w + d) % w = d := by
    rw [Nat.mul_comm, Nat.mul_add_mod, Nat.mod_eq_of_lt hd]
  have hbd : b = d := by rw [← h1, ← h2, h]
  refine ⟨?_, hbd⟩
  have h3 : a * w = c * w := by omega
  exact Nat.eq_of_mul_eq_mul_right (by omega) h3

theorem mem_rectPts (x1 y1 x2 y2 : Int) (p : Int × Int) :
    p ∈ (intRange x1 (x2 + 1)).flatMap
        (fun a => (intRange y1 (y2 + 1)).map (fun b => (a, b))) ↔
      x1 ≤ p.1 ∧ p.1 ≤ x2 ∧ y1 ≤ p.2 ∧ p.2 ≤ y2 := by
  obtain ⟨px, py⟩ := p
  simp only [List.mem_flatMap, List.mem_map, mem_intRange, Prod.mk.injEq]
  constructor
  · rintro ⟨a, ⟨ha1, ha2⟩, b, ⟨hb1, hb2⟩, rfl, rfl⟩
    exact ⟨ha1, by omega, hb1, by omega⟩
  · rintro ⟨h1, h2, h3, h4⟩
    exact ⟨px, ⟨h1, by omega⟩, py, ⟨h3, by omega⟩, rfl, rfl⟩

theorem mem_borderPts (x1 y1 x2 y2 : Int) (p : Int × Int) :
    p ∈ (intRange x1 (x2 + 1)).flatMap (fun a => [(a, y1), (a, y2)]) ++
        (intRange y1 (y2 + 1)).flatMap (fun b => [(x1, b), (x2, b)]) ↔
      (x1 ≤ p.1 ∧ p.1 ≤ x2 ∧ (p.2 = y1 ∨ p.2 = y2)) ∨
      (y1 ≤ p.2 ∧ p.2 ≤ y2 ∧ (p.1 = x1 ∨ p.1 = x2)) := by
  obtain ⟨px, py⟩ := p
  simp only [List.mem_append, List.mem_flatMap, List.mem_cons,
    List.not_mem_nil, or_false, mem_intRange, Prod.mk.injEq]
  constructor
  · rintro (⟨a, ⟨ha1, ha2⟩, (⟨rfl, rfl⟩ | ⟨rfl, rfl⟩)⟩ |
      ⟨b, ⟨hb1, hb2⟩, (⟨rfl, rfl⟩ | ⟨rfl, rfl⟩)⟩)
    · exact Or.inl ⟨ha1, by omega, Or.inl rfl⟩
    · exact Or.inl ⟨ha1, by omega, Or.inr rfl⟩
    · exact Or.inr ⟨hb1, by omega, Or.inl rfl⟩
    · exact Or.inr ⟨hb1, by omega, Or.inr rfl⟩
  · rintro (⟨h1, h2, (rfl | rfl)⟩ | ⟨h1, h2, (rfl | rfl)⟩)
    · exact Or.inl ⟨px, ⟨h1, by omega⟩, Or.inl ⟨rfl, rfl⟩⟩
    · exact Or.inl ⟨px, ⟨h1, by omega⟩, Or.inr ⟨rfl, rfl⟩⟩
    · exact Or.inr ⟨py, ⟨h1, by omega⟩, Or.inl ⟨rfl, rfl⟩⟩
    · exact Or.inr ⟨py, ⟨h1, by omega⟩, Or.inr ⟨rfl, rfl⟩⟩

/-- C5: `set_rect` with in-bounds ordered corners sets exactly the cells
of the inclusive rectangle to `value` and leaves every other cell (and
the dimensions) unchanged. -/
theorem set_rect_fills_exactly (m : RoborockMap) (x1 y1 x2 y2 : Int) (v : Nat)
    (hlen : m._map.length = m.width * m.height) (hv : v < 2 ^ 32)
    (hx0 : 0 ≤ x1) (hx12 : x1 ≤ x2) (hx2 : x2 < m.width)
    (hy0 : 0 ≤ y1) (hy12 : y1 ≤ y2) (hy2 : y2 < m.height) :
    ∃ m', set_rect m (x1, y1, x2, y2) v = some m' ∧
      m'.width = m.width ∧ m'.height = m.height ∧
      m'._map.length = m._map.length ∧
      ∀ x y : Int, 0 ≤ x → x < m.width → 0 ≤ y → y < m.height →
        get_pixel m' x y =
          if x1 ≤ x ∧ x ≤ x2 ∧ y1 ≤ y ∧ y ≤ y2 then some v
          else get_pixel m x y := by
  have hin : ∀ p ∈ (intRange x1 (x2 + 1)).flatMap
      (fun a => (intRange y1 (y2 + 1)).map (fun b => (a, b))),
      0 ≤ p.1 ∧ p.1 < m.width ∧ 0 ≤ p.2 ∧ p.2 < m.height := by
    intro p hp
    obtain ⟨h1, h2, h3, h4⟩ := (mem_rectPts x1 y1 x2 y2 p).mp hp
    exact ⟨by omega, by omega, by omega, by omega⟩
  obtain ⟨m', hsp, hhd, hwd, hht, hck, hml, hcell⟩ :=
    setPixels_spec _ m v hlen hv hin
  refine ⟨m', hsp, hwd, hht, hml, ?_⟩
  intro x y hxa hxb hya hyb
  have hlen' : m'._map.length = m'.width * m'.height := by
    rw [hml, hlen, hwd, hht]
  have hg' : get_pixel m' x y =
      some (m'._map.getD (y.toNat * m'.width + x.toNat) 0) :=
    get_pixel_inGrid m' x y hlen' hxa (by rw [hwd]; exact hxb) hya
      (by rw [hht]; exact hyb)
  have hg : get_pixel m x y =
      some (m._map.getD (y.toNat * m.width + x.toNat) 0) :=
    get_pixel_inGrid m x y hlen hxa hxb hya hyb
  rw [hg', hwd]
  split_ifs with hrect
  · congr 1
    exact (hcell _).1 ⟨(x, y), (mem_rectPts x1 y1 x2 y2 (x, y)).mpr
      ⟨hrect.1, hrect.2.1, hrect.2.2.1, hrect.2.2.2⟩, rfl⟩
  · rw [hg]
    congr 1
    refine (hcell _).2 ?_
    intro q hq hlin
    obtain ⟨h1, h2, h3, h4⟩ := (mem_rectPts x1 y1 x2 y2 q).mp hq
    obtain ⟨hq0, hq1, hq2, hq3⟩ := hin q hq
    obtain ⟨hyy, hxx⟩ := lin_unique (w := m.width) (by omega) (by omega) hlin
    exact hrect ⟨by omega, by omega, by omega, by omega⟩

/-- C6: `set_rect_border` with in-bounds ordered corners sets exactly the
perimeter cells (rows `y1`/`y2` over `[x1, x2]` and columns `x1`/`x2`
over `[y1, y2]`) and leaves the interior and everything else unchanged;
with `x1 = x2` or `y1 = y2` the perimeter degenerates to a line. -/
theorem set_rect_border_perimeter (m : RoborockMap) (x1 y1 x2 y2 : Int) (v : Nat)
    (hlen : m._map.length = m.width * m.height) (hv : v < 2 ^ 32)
    (hx0 : 0 ≤ x1) (hx12 : x1 ≤ x2) (hx2 : x2 < m.width)
    (hy0 : 0 ≤ y1) (hy12 : y1 ≤ y2) (hy2 : y2 < m.height) :
    ∃ m', set_rect_border m (x1, y1, x2, y2) v = some m' ∧
      m'.width = m.width ∧ m'.height = m.height ∧
      m'._map.length = m._map.length ∧
      ∀ x y : Int, 0 ≤ x → x < m.width → 0 ≤ y → y < m.height →
        get_pixel m' x y =
          if (x1 ≤ x ∧ x ≤ x2 ∧ (y = y1 ∨ y = y2)) ∨
             (y1 ≤ y ∧ y ≤ y2 ∧ (x = x1 ∨ x = x2)) then some v
          else get_pixel m x y := by
  have hin : ∀ p ∈ (intRange x1 (x2 + 1)).flatMap (fun a => [(a, y1), (a, y2)]) ++
      (intRange y1 (y2 + 1)).flatMap (fun b => [(x1, b), (x2, b)]),
      0 ≤ p.1 ∧ p.1 < m.width ∧ 0 ≤ p.2 ∧ p.2 < m.height := by
    intro p hp
    rcases (mem_borderPts x1 y1 x2 y2 p).mp hp with ⟨h1, h2, h3 | h3⟩ | ⟨h1, h2, h3 | h3⟩ <;>
      exact ⟨by omega, by omega, by omega, by omega⟩
  obtain ⟨m', hsp, hhd, hwd, hht, hck, hml, hcell⟩ :=
    setPixels_spec _ m v hlen hv hin
  refine ⟨m', hsp, hwd, hht, hml, ?_⟩
  intro x y hxa hxb hya hyb
  have hlen' : m'._map.length = m'.width * m'.height := by
    rw [hml, hlen, hwd, hht]
  have hg' : get_pixel m' x y =
      some (m'._map.getD (y.toNat * m'.width + x.toNat) 0) :=
    get_pixel_inGrid m' x y hlen' hxa (by rw [hwd]; exact hxb) hya
      (by rw [hht]; exact hyb)
  have hg : get_pixel m x y =
      some (m._map.getD (y.toNat * m.width + x.toNat) 0) :=
    get_pixel_inGrid m x y hlen hxa hxb hya hyb
  rw [hg', hwd]
  split_ifs with hper
  · congr 1
    refine (hcell _).1 ⟨(x, y), (mem_borderPts x1 y1 x2 y2 (x, y)).mpr ?_, rfl⟩
    exact hper
  · rw [hg]
    congr 1
    refine (hcell _).2 ?_
    intro q hq hlin
    obtain ⟨hq0, hq1, hq2, hq3⟩ := hin q hq
    obtain ⟨hyy, hxx⟩ := lin_unique (w := m.width) (by omega) (by omega) hlin
    have hqx : q.1 = x := by omega
    have hqy : q.2 = y := by omega
    apply hper
    have := (mem_borderPts x1 y1 x2 y2 q).mp hq
    rw [hqx, hqy] at this
    exact this

/-- C9 (amended): `set_rect` is a silent no-op whenever `x1 > x2` or
`y1 > y2`; `set_rect_border` is a silent no-op when both axes are
reversed (with only one axis reversed its second loop still draws the
two lines of the other axis). -/
theorem reversed_bounds_noop (m : RoborockMap) (x1 y1 x2 y2 : Int) (v : Nat) :
    (x2 < x1 ∨ y2 < y1 → set_rect m (x1, y1, x2, y2) v = some m) ∧
    (x2 < x1 → y2 < y1 → set_rect_border m (x1, y1, x2, y2) v = some m) := by
  constructor
  · intro h
    show setPixels m ((intRange x1 (x2 + 1)).flatMap
      (fun a => (intRange y1 (y2 + 1)).map (fun b => (a, b)))) v = some m
    rcases h with h | h
    · rw [intRange_eq_nil (a := x1) (b := x2 + 1) (by omega)]
      rfl
    · rw [List.flatMap_eq_nil_iff.mpr
        (fun a _ => by rw [intRange_eq_nil (a := y1) (b := y2 + 1) (by omega)]; rfl)]
      rfl
  · intro hx hy
    show setPixels m ((intRange x1 (x2 + 1)).flatMap (fun a => [(a, y1), (a, y2)]) ++
      (intRange y1 (y2 + 1)).flatMap (fun b => [(x1, b), (x2, b)])) v = some m
    rw [intRange_eq_nil (a := x1) (b := x2 + 1) (by omega),
      intRange_eq_nil (a := y1) (b := y2 + 1) (by omega)]
    rfl

/-- A concrete 5×5 map object with an all-zero grid. -/
def grid5 : RoborockMap :=
  ⟨[0, 0, 0, 0, 0, 0, 0, 0, 5, 5], 5, 5, List.replicate 25 0, [0, 0, 0, 0]⟩

/-- C9 counterexample: with only the x-axis reversed (`x1 = 3 > 2 = x2`,
`y1 = 1 ≤ 3 = y2`), `set_rect_border` is not a no-op: its column loop
still writes, changing cell `(2, 1)` from 0 to 7. -/
theorem set_rect_border_reversed_not_noop :
    get_pixel grid5 2 1 = some 0 ∧
    (set_rect_border grid5 (3, 1, 2, 3) 7).bind
      (fun m2 => get_pixel m2 2 1) = some 7 := by
  decide

/-! ## Witnesses: the general theorems applied at concrete inputs -/

theorem pixel_accessor_bounds_witness :
    map22._map.length = map22.width * map22.height ∧
    (set_pixel map22 0 (map22.height : Int) 7 = none ∧
     (get_pixel map22 (map22.width : Int) 0 = none ↔
       map22.width * map22.height ≤ map22.width)) :=
  ⟨by decide, pixel_accessor_bounds map22 7 (by decide)⟩

theorem round_trip_witness :
    ValidBytes bytes22 ∧ load bytes22 = some map22 ∧
    (∃ m', load (to_file map22).2 = some m' ∧ m'.header = map22.header ∧
      m'._map = map22._map ∧ m'.width = map22.width ∧
      m'.height = map22.height) :=
  ⟨by decide, by decide, round_trip bytes22 map22 (by decide) (by decide)⟩

theorem load_checksum_mismatch_nonfatal_witness :
    (wordsToBytes [0, 0, 0, 0, 0, 0, 0, 0, 2, 2]).length = 40 ∧
    (wordsToBytes [10, 11, 12, 13]).length =
      4 * ((bytesToWords (wordsToBytes [0, 0, 0, 0, 0, 0, 0, 0, 2, 2])).getD 8 0 *
           (bytesToWords (wordsToBytes [0, 0, 0, 0, 0, 0, 0, 0, 2, 2])).getD 9 0) ∧
    (List.replicate 16 (0 : Nat)).length = 16 ∧
    (load (wordsToBytes [0, 0, 0, 0, 0, 0, 0, 0, 2, 2] ++
        (wordsToBytes [10, 11, 12, 13] ++ List.replicate 16 0)) =
      some ⟨bytesToWords (wordsToBytes [0, 0, 0, 0, 0, 0, 0, 0, 2, 2]),
            (bytesToWords (wordsToBytes [0, 0, 0, 0, 0, 0, 0, 0, 2, 2])).getD 8 0,
            (bytesToWords (wordsToBytes [0, 0, 0, 0, 0, 0, 0, 0, 2, 2])).getD 9 0,
            bytesToWords (wordsToBytes [10, 11, 12, 13]),
            bytesToWords (List.replicate 16 0)⟩ ∧
     loadWarning (wordsToBytes [0, 0, 0, 0, 0, 0, 0, 0, 2, 2] ++
        (wordsToBytes [10, 11, 12, 13] ++ List.replicate 16 0)) =
      some (decide (calc_map_checksum
        ⟨bytesToWords (wordsToBytes [0, 0, 0, 0, 0, 0, 0, 0, 2, 2]),
         (bytesToWords (wordsToBytes [0, 0, 0, 0, 0, 0, 0, 0, 2, 2])).getD 8 0,
         (bytesToWords (wordsToBytes [0, 0, 0, 0, 0, 0, 0, 0, 2, 2])).getD 9 0,
         bytesToWords (wordsToBytes [10, 11, 12, 13]),
         bytesToWords (List.replicate 16 0)⟩ ≠ bytesToWords (List.replicate 16 0)))) :=
  ⟨by decide, by decide, by decide,
   load_checksum_mismatch_nonfatal _ _ _ (by decide) (by decide) (by decide)⟩

theorem set_rect_fills_exactly_witness :
    grid5._map.length = grid5.width * grid5.height ∧ (7 : Nat) < 2 ^ 32 ∧
    (0 : Int) ≤ 1 ∧ (1 : Int) ≤ 3 ∧ (3 : Int) < (grid5.width : Int) ∧
    (0 : Int) ≤ 1 ∧ (1 : Int) ≤ 3 ∧ (3 : Int) < (grid5.height : Int) ∧
    (∃ m', set_rect grid5 (1, 1, 3, 3) 7 = some m' ∧
      m'.width = grid5.width ∧ m'.height = grid5.height ∧
      m'._map.length = grid5._map.length ∧
      ∀ x y : Int, 0 ≤ x → x < (grid5.width : Int) → 0 ≤ y →
        y < (grid5.height : Int) →
        get_pixel m' x y =
          if (1 : Int) ≤ x ∧ x ≤ 3 ∧ (1 : Int) ≤ y ∧ y ≤ 3 then some 7
          else get_pixel grid5 x y) :=
  ⟨by decide, by decide, by decide, by decide, by decide, by decide, by decide,
   by decide,
   set_rect_fills_exactly grid5 1 1 3 3 7 (by decide) (by decide) (by decide)
     (by decide) (by decide) (by decide) (by decide) (by decide)⟩

theorem set_rect_border_perimeter_witness :
    grid5._map.length = grid5.width * grid5.height ∧ (9 : Nat) < 2 ^ 32 ∧
    (0 : Int) ≤ 0 ∧ (0 : Int) ≤ 4 ∧ (4 : Int) < (grid5.width : Int) ∧
    (0 : Int) ≤ 0 ∧ (0 : Int) ≤ 4 ∧ (4 : Int) < (grid5.height : Int) ∧
    (∃ m', set_rect_border grid5 (0, 0, 4, 4) 9 = some m' ∧
      m'.width = grid5.width ∧ m'.height = grid5.height ∧
      m'._map.length = grid5._map.length ∧
      ∀ x y : Int, 0 ≤ x → x < (grid5.width : Int) → 0 ≤ y →
        y < (grid5.height : Int) →
        get_pixel m' x y =
          if ((0 : Int) ≤ x ∧ x ≤ 4 ∧ (y = 0 ∨ y = 4)) ∨
             ((0 : Int) ≤ y ∧ y ≤ 4 ∧ (x = 0 ∨ x = 4)) then some 9
          else get_pixel grid5 x y) :=
  ⟨by decide, by decide, by decide, by decide, by decide, by decide, by decide,
   by decide,
   set_rect_border_perimeter grid5 0 0 4 4 9 (by decide) (by decide) (by decide)
     (by decide) (by decide) (by decide) (by decide) (by decide)⟩

theorem reversed_bounds_noop_witness :
    ((2 : Int) < 3 ∨ (1 : Int) < 4) ∧ ((2 : Int) < 3) ∧ ((1 : Int) < 4) ∧
    set_rect grid5 (3, 4, 2, 1) 7 = some grid5 ∧
    set_rect_border grid5 (3, 4, 2, 1) 7 = some grid5 :=
  ⟨Or.inl (by decide), by decide, by decide,
   (reversed_bounds_noop grid5 3 4 2 1 7).1 (Or.inl (by decide)),
   (reversed_bounds_noop grid5 3 4 2 1 7).2 (by decide) (by decide)⟩

theorem pixel_linear_indexing_witness :
    map22._map.length = map22.width * map22.height ∧
    0 < map22.width * map22.height ∧ (7 : Nat) < 2 ^ 32 ∧
    ((-((map22.width * map22.height : Nat) : Int) ≤ 0 * (map22.width : Int) + -1 ∧
        0 * (map22.width : Int) + -1 < ((map22.width * map22.height : Nat) : Int) →
      get_pixel map22 (-1) 0 =
        some (map22._map.getD
          ((0 * (map22.width : Int) + -1) %
            ((map22.width * map22.height : Nat) : Int)).toNat 0) ∧
      set_pixel map22 (-1) 0 7 =
        some { map22 with _map := map22._map.set ((0 * (map22.width : Int) + -1) % ((map22.width * map22.height : Nat) : Int)).toNat 7 }) ∧
    (0 * (map22.width : Int) + -1 < -((map22.width * map22.height : Nat) : Int) ∨
        ((map22.width * map22.height : Nat) : Int) ≤ 0 * (map22.width : Int) + -1 →
      get_pixel map22 (-1) 0 = none ∧ set_pixel map22 (-1) 0 7 = none)) :=
  ⟨by decide, by decide, by decide,
   pixel_linear_indexing map22 (-1) 0 7 (by decide) (by decide) (by decide)⟩

end Roborock
